import Mathlib

/-!
Verification of the peer-1on1 pairing tool.

The repository contains three implementations of the same pairing contract:

* a randomized-search variant (`generateAssignments` / `adjustAssignments`
  plus a `main` that appends one new month to the input data);
* a greedy variant (`createAssignments` with helpers `isExcluded`,
  `getRecentPair`, `getPastPairs`, `assignPair`);
* a pairing-history-matrix variant (`generateNewAssignments` with helpers
  `isPairExcluded`, `isRecentPairing`, `getPairingScore`).

Embedding conventions: JavaScript arrays are Lean lists; JavaScript `Set`s
are lists queried only through membership; `Math.random()` is an explicit
stream of natural numbers consumed left to right (`RandSrc`), so every function
is a pure function of its input and the stream; the self-recursive
randomized generator is given explicit fuel, and running out of fuel yields
`none`; numbers are `Nat` (every number produced by the programs is a
non-negative integer).
-/

/-- A mentor/mentee assignment (`interface Assignment`). -/
structure Assignment where
  mentor : String
  mentee : String
deriving DecidableEq, Repr

/-- Flip mentor and mentee of an assignment. -/
def Assignment.flip (a : Assignment) : Assignment := ⟨a.mentee, a.mentor⟩

/-- Explicit source of the numbers consumed by `Math.random()`: an infinite
stream of naturals and the position of the next draw. -/
structure RandSrc where
  stream : Nat → Nat
  pos : Nat

/-- Source `Math.floor(Math.random() * n)`: some value below `n`, advancing the
stream by one draw. -/
def randBelow (n : Nat) (r : RandSrc) : Nat × RandSrc :=
  (r.stream r.pos % n, ⟨r.stream, r.pos + 1⟩)

/-! ## Randomized-search variant: data model -/

/-- The `skip` field of a month: a single name or a list of names
(`string | string[]`). -/
inductive SkipVal where
  | one : String → SkipVal
  | many : List String → SkipVal
deriving DecidableEq, Repr

/-- A month record of the randomized variant (`interface Month`). -/
structure Month1 where
  month : String
  skip : Option SkipVal := none
  assignments : Option (List Assignment) := none
  extraSkip : Option SkipVal := none
deriving DecidableEq, Repr

/-- The input structure of the randomized variant (`interface InputData`). -/
structure InputData1 where
  members : List String
  excluded : Option (List (String × String)) := none
  months : List Month1
deriving DecidableEq, Repr

/-- The result of `generateAssignments` (`interface AssignmentResult`). -/
structure AssignmentResult where
  assignments : List Assignment
  extraSkip : List String
deriving DecidableEq, Repr

/-! ## Randomized-search variant: month-label parsing -/

/-- Source `parseInt` on a run of decimal digits. -/
def digitsToNat (cs : List Char) : Nat :=
  cs.foldl (fun n c => n * 10 + (c.toNat - 48)) 0

/-- Try to match the regex `(\d+)年(\d+)月` at the head of the character
list: a maximal nonempty digit run, `年`, a maximal nonempty digit run,
`月`. -/
def tryMatchYM (cs : List Char) : Option (Nat × Nat) :=
  match cs with
  | [] => none
  | c :: _ =>
    if c.isDigit then
      match cs.dropWhile Char.isDigit with
      | '年' :: rest2 =>
        let mo := rest2.takeWhile Char.isDigit
        if mo.isEmpty then none
        else
          match rest2.dropWhile Char.isDigit with
          | '月' :: _ => some (digitsToNat (cs.takeWhile Char.isDigit), digitsToNat mo)
          | _ => none
      | _ => none
    else none

/-- First match of the regex in the string, scanning start positions left to
right. -/
def searchYM : List Char → Option (Nat × Nat)
  | [] => none
  | c :: rest =>
    match tryMatchYM (c :: rest) with
    | some r => some r
    | none => searchYM rest

/-- Source `parseMonth`: parse `"YYYY年MM月"` (first regex match) into year and
month. -/
def parseMonth (s : String) : Option (Nat × Nat) :=
  searchYM s.data

/-- Source `formatMonth`: render year and month as `"YYYY年MM月"`. -/
def formatMonth (year month : Nat) : String :=
  toString year ++ "年" ++ toString month ++ "月"

/-! ## Randomized-search variant: shuffling and candidate generation -/

/-- One Fisher–Yates swap `[copy[i], copy[j]] = [copy[j], copy[i]]` (the two
reads happen before the two writes). -/
def shuffleStep (l : List String) (i j : Nat) : List String :=
  (l.set i (l.getD j "")).set j (l.getD i "")

/-- The loop of `shuffleArray`, the counter `i` counting down to `0`. -/
def fisherYatesAux : Nat → List String → RandSrc → List String × RandSrc
  | 0, l, r => (l, r)
  | i + 1, l, r =>
    let p := randBelow (i + 2) r
    fisherYatesAux i (shuffleStep l (i + 1) p.1) p.2

/-- Source `shuffleArray`: Fisher–Yates shuffle driven by the random stream. -/
def shuffleArray (l : List String) (r : RandSrc) : List String × RandSrc :=
  fisherYatesAux (l.length - 1) l r

/-- Source `generateCandidate`: shuffle the eligible members and pair the first
half as mentors with the second half as mentees.  Every call site passes a
list of even length, for which the index arithmetic of the source loop is
exactly this take/drop split. -/
def generateCandidate (eligible : List String) (r : RandSrc) : List Assignment × RandSrc :=
  let p := shuffleArray eligible r
  let half := p.1.length / 2
  (List.zipWith Assignment.mk (p.1.take half) (p.1.drop half), p.2)

/-! ## Randomized-search variant: exclusion keys and penalties -/

/-- The `"mentor|mentee"` key of an assignment. -/
def pairKey (a : Assignment) : String :=
  a.mentor ++ "|" ++ a.mentee

/-- Source `buildExcludedSet`: both orientations of every excluded pair, as keys. -/
def buildExcludedSet (excluded : Option (List (String × String))) : List String :=
  match excluded with
  | none => []
  | some l => l.flatMap fun p => [p.1 ++ "|" ++ p.2, p.2 ++ "|" ++ p.1]

/-- Source `candidateHasExcluded`: does the candidate contain an excluded key? -/
def candidateHasExcluded (candidate : List Assignment) (excludedSet : List String) : Bool :=
  candidate.any fun a => excludedSet.contains (pairKey a)

/-- Source `countOverlap`: number of pairs of `a1` whose key occurs in `a2`. -/
def countOverlap (a1 a2 : List Assignment) : Nat :=
  a1.countP fun a => (a2.map pairKey).contains (pairKey a)

/-- Source `buildPastSet`: the keys of every assignment of every month (the loop
over `data.months` inside `generateAssignments`). -/
def buildPastSet (months : List Month1) : List String :=
  months.flatMap fun m => (m.assignments.getD []).map pairKey

/-- The penalty of one candidate: past-pair hits plus overlap with the
previous month's assignments. -/
def candidatePenalty (candidate : List Assignment) (pastSet : List String)
    (prevAssignments : Option (List Assignment)) : Nat :=
  candidate.countP (fun a => pastSet.contains (pairKey a)) +
    match prevAssignments with
    | some pa => countOverlap candidate pa
    | none => 0

/-- The bounded-attempts loop of `generateAssignments`: keep the candidate
with the least penalty among those avoiding excluded pairs, breaking early
on penalty `0`.  `best` plays the role of `bestCandidate`/`bestPenalty`
(`none` is `bestCandidate === null`, i.e. `bestPenalty === Infinity`). -/
def attemptLoop (eligible pastSet : List String) (prevAssignments : Option (List Assignment))
    (excludedSet : List String) :
    Nat → Option (List Assignment × Nat) → RandSrc → Option (List Assignment × Nat) × RandSrc
  | 0, best, r => (best, r)
  | n + 1, best, r =>
    let c := generateCandidate eligible r
    if candidateHasExcluded c.1 excludedSet then
      attemptLoop eligible pastSet prevAssignments excludedSet n best c.2
    else
      let penalty := candidatePenalty c.1 pastSet prevAssignments
      let isBetter := match best with
        | none => true
        | some b => penalty < b.2
      if isBetter then
        if penalty = 0 then (some (c.1, penalty), c.2)
        else attemptLoop eligible pastSet prevAssignments excludedSet n (some (c.1, penalty)) c.2
      else attemptLoop eligible pastSet prevAssignments excludedSet n best c.2

/-- The eligible members at the start of `generateAssignments`: everyone
except the skipped member, when one is given. -/
def eligibleOf (members : List String) (skip : Option String) : List String :=
  match skip with
  | some s => members.filter fun m => m ≠ s
  | none => members

/-- Source `generateAssignments`, with explicit fuel bounding the recursion depth.
The retry branch of the source removes one random member from its local
`eligible` array and then calls itself with its *original* arguments
(`members`, `skip`, `prevAssignments`, `excludedSet`), so the only state
carried into the recursive call is the advanced random stream. -/
def generateAssignmentsFuel (monthsAll : List Month1) (excludedSet : List String) :
    Nat → List String → Option String → Option (List Assignment) → RandSrc →
    Option (AssignmentResult × RandSrc)
  | 0, _, _, _, _ => none
  | fuel + 1, members, skip, prevAssignments, r0 =>
    let eligible0 := eligibleOf members skip
    let oddStep : List String × List String × RandSrc :=
      if eligible0.length % 2 ≠ 0 then
        let p := randBelow eligible0.length r0
        (eligible0.eraseIdx p.1, [eligible0.getD p.1 ""], p.2)
      else (eligible0, [], r0)
    let eligible := oddStep.1
    let extraSkipped := oddStep.2.1
    let r1 := oddStep.2.2
    let pastSet := buildPastSet monthsAll
    let res := attemptLoop eligible pastSet prevAssignments excludedSet 1000 none r1
    match res.1 with
    | some best => some ({ assignments := best.1, extraSkip := extraSkipped }, res.2)
    | none =>
      if eligible.length = 0 then
        some ({ assignments := [], extraSkip := extraSkipped }, res.2)
      else
        let p := randBelow eligible.length res.2
        generateAssignmentsFuel monthsAll excludedSet fuel members skip prevAssignments p.2

/-! ## Randomized-search variant: orientation adjustment -/

/-- Size of the JavaScript `Set` `{x, y}`. -/
def pairSetSize (x y : String) : Nat :=
  if x = y then 1 else 2

/-- Source `pairSet.size === aSet.size && [...pairSet].every(x => aSet.has(x))`:
the two assignments cover the same unordered pair. -/
def sameUnordered (pair a : Assignment) : Bool :=
  pairSetSize pair.mentor pair.mentee == pairSetSize a.mentor a.mentee &&
    ((pair.mentor == a.mentor || pair.mentor == a.mentee) &&
     (pair.mentee == a.mentor || pair.mentee == a.mentee))

/-- The scan of one month inside `adjustAssignments`: the first assignment
on the same unordered pair, months without an assignment list contributing
nothing. -/
def monthMatch (pair : Assignment) (m : Month1) : Option Assignment :=
  (m.assignments.getD []).find? fun a => sameUnordered pair a

/-- The body of `adjustAssignments` for one candidate pair: find the most
recent month containing the same unordered pair (scanning history from the
end) and flip the candidate when that occurrence has the same
orientation. -/
def adjustPair (history : List Month1) (pair : Assignment) : Assignment :=
  match history.reverse.findSome? (monthMatch pair) with
  | none => pair
  | some a =>
    if a.mentor == pair.mentor && a.mentee == pair.mentee then
      if a.mentor == pair.mentee && a.mentee == pair.mentor then pair
      else { mentor := pair.mentee, mentee := pair.mentor }
    else pair

/-- Source `adjustAssignments`: adjust every candidate pair against the history. -/
def adjustAssignments (candidate : List Assignment) (history : List Month1) :
    List Assignment :=
  candidate.map (adjustPair history)

/-! ## Randomized-search variant: main -/

/-- The successor label computed by `main`: parse the last month's label and
advance by one month, rolling over the year after month 12. -/
def nextLabel (s : String) : Option String :=
  (parseMonth s).map fun ym =>
    if ym.2 + 1 > 12 then formatMonth (ym.1 + 1) 1 else formatMonth ym.1 (ym.2 + 1)

/-- The `prevAssignments` scan of `main`: the assignment list of the last
month before the final one that has one. -/
def prevAssignmentsOf (months : List Month1) : Option (List Assignment) :=
  months.dropLast.reverse.findSome? (·.assignments)

/-- The `skip` field written by `main` into the new month: absent when no
member was left over, the single name when exactly one was, the list
otherwise. -/
def skipField (extraSkip : List String) : Option SkipVal :=
  if extraSkip.length > 0 then
    some (if extraSkip.length == 1 then .one (extraSkip.getD 0 "") else .many extraSkip)
  else none

/-- The computation of `main` after the input JSON has been read: `none` on
a fatal error (no months, unparseable label) or when the generator's fuel
runs out, otherwise the input with exactly one new month appended. -/
def runMain (fuel : Nat) (input : InputData1) (r : RandSrc) : Option InputData1 :=
  match input.months.getLast? with
  | none => none
  | some lastMonth =>
    match nextLabel lastMonth.month with
    | none => none
    | some label =>
      let excludedSet := buildExcludedSet input.excluded
      let prev := prevAssignmentsOf input.months
      match generateAssignmentsFuel input.months excludedSet fuel input.members none prev r with
      | none => none
      | some (result, _) =>
        let newAssignments := adjustAssignments result.assignments input.months
        let newMonth : Month1 :=
          { month := label, skip := skipField result.extraSkip,
            assignments := some newAssignments, extraSkip := none }
        some { input with months := input.months ++ [newMonth] }

/-! ## Greedy variant (`createAssignments`) -/

/-- A month record of the greedy variant (`interface MonthData`). -/
structure MonthData2 where
  month : String
  skip : Option String := none
  assignments : List Assignment
deriving DecidableEq, Repr

/-- Source `isExcluded`: the pair occurs in the exclusion list in either
orientation. -/
def isExcluded (pair : String × String) (excludedList : List (String × String)) : Bool :=
  excludedList.any fun ep =>
    (ep.1 == pair.1 && ep.2 == pair.2) || (ep.1 == pair.2 && ep.2 == pair.1)

/-- Source `getRecentPair`: scanning months from the most recent, the first
assignment that involves the member. -/
def getRecentPair (member : String) (months : List MonthData2) : Option Assignment :=
  months.reverse.findSome? fun md =>
    md.assignments.find? fun a => a.mentor == member || a.mentee == member

/-- Source `getPastPairs`: all historical assignments on the unordered pair, in
chronological order. -/
def getPastPairs (pair : String × String) (months : List MonthData2) : List Assignment :=
  months.flatMap fun md =>
    md.assignments.filter fun a =>
      (a.mentor == pair.1 && a.mentee == pair.2) || (a.mentor == pair.2 && a.mentee == pair.1)

/-- The mutable locals of `createAssignments`. -/
structure CAState where
  availableMentors : List String
  availableMentees : List String
  assignments : List Assignment
  usedPairs : List String
deriving DecidableEq, Repr

/-- Source `isPairUsed`: either orientation of the pair has been recorded. -/
def isPairUsed (used : List String) (mentor mentee : String) : Bool :=
  used.contains (mentor ++ ":" ++ mentee) || used.contains (mentee ++ ":" ++ mentor)

/-- Source `array.splice(array.indexOf(x), 1)`: remove the first occurrence, or the
last element when `x` is absent (`indexOf` returns `-1`). -/
def spliceOut (l : List String) (x : String) : List String :=
  if l.contains x then l.erase x else l.dropLast

/-- Source `assignPair`: try to record (mentor, mentee), refusing self-pairs,
excluded pairs, already-used pairs, and pairs repeating either orientation
of a participant's most recent assignment. -/
def assignPair (excludedList : List (String × String)) (pastMonths : List MonthData2)
    (mentor mentee : String) (st : CAState) : Bool × CAState :=
  if mentor == mentee then (false, st)
  else if isExcluded (mentor, mentee) excludedList then (false, st)
  else if isPairUsed st.usedPairs mentor mentee then (false, st)
  else
    let recentMentorPair := getRecentPair mentor pastMonths
    let recentMenteePair := getRecentPair mentee pastMonths
    if (match recentMentorPair with | some a => a.mentee == mentee | none => false) then
      (false, st)
    else if (match recentMenteePair with | some a => a.mentor == mentor | none => false) then
      (false, st)
    else
      (true,
        { availableMentors := spliceOut st.availableMentors mentor,
          availableMentees := spliceOut st.availableMentees mentee,
          assignments := st.assignments ++ [⟨mentor, mentee⟩],
          usedPairs := st.usedPairs ++ [mentor ++ ":" ++ mentee] })

/-- The body of the first (reversal-priority) loop of `createAssignments`
for one ordered pair (member1, member2). -/
def reversalStep (excludedList : List (String × String)) (pastMonths : List MonthData2)
    (st : CAState) (m1 m2 : String) : CAState :=
  if m1 == m2 then st
  else
    match (getPastPairs (m1, m2) pastMonths).getLast? with
    | none => st
    | some mostRecent =>
      if mostRecent.mentor == m1 then
        if st.availableMentors.contains m2 && st.availableMentees.contains m1 then
          (assignPair excludedList pastMonths m2 m1 st).2
        else st
      else st

/-- The first loop of `createAssignments`: for every ordered pair of
members, try the reversed orientation of the most recent past pairing. -/
def reversalLoop (excludedList : List (String × String)) (pastMonths : List MonthData2)
    (members : List String) (st : CAState) : CAState :=
  members.foldl
    (fun st m1 => members.foldl (fun st m2 => reversalStep excludedList pastMonths st m1 m2) st)
    st

/-- The inner loop of the brute-force pass: try mentees in member order and
stop at the first success. -/
def bruteInner (excludedList : List (String × String)) (pastMonths : List MonthData2)
    (mentor : String) : List String → CAState → CAState
  | [], st => st
  | mentee :: rest, st =>
    if st.availableMentees.contains mentee then
      let p := assignPair excludedList pastMonths mentor mentee st
      if p.1 then p.2 else bruteInner excludedList pastMonths mentor rest p.2
    else bruteInner excludedList pastMonths mentor rest st

/-- The second (brute-force) loop of `createAssignments`. -/
def bruteLoop (excludedList : List (String × String)) (pastMonths : List MonthData2)
    (members : List String) (st : CAState) : CAState :=
  members.foldl
    (fun st mentor =>
      if st.availableMentors.contains mentor then
        bruteInner excludedList pastMonths mentor members st
      else st)
    st

/-- Source `createAssignments`: reversal-priority pass, brute-force pass, then the
leftover mentor and mentee pools become the skip list. -/
def createAssignments (members : List String) (excludedList : List (String × String))
    (pastMonths : List MonthData2) : List Assignment × List String :=
  let st0 : CAState := ⟨members, members, [], []⟩
  let st1 := reversalLoop excludedList pastMonths members st0
  let st2 := bruteLoop excludedList pastMonths members st1
  (st2.assignments, st2.availableMentors ++ st2.availableMentees)

/-! ## Pairing-history-matrix variant (`generateNewAssignments`) -/

/-- A month record of the matrix variant (`interface Month`, third
source). -/
structure Month3 where
  month : String
  skip : List String
  assignments : List Assignment
deriving DecidableEq, Repr

/-- Source `isPairExcluded`: the pair is excluded in either orientation. -/
def isPairExcluded (mentor mentee : String) (excluded : List (String × String)) : Bool :=
  excluded.any fun p =>
    (p.1 == mentor && p.2 == mentee) || (p.1 == mentee && p.2 == mentor)

/-- Source `isRecentPairing`: the pair occurs, in either orientation, in the
previous month. -/
def isRecentPairing (mentor mentee : String) (previousMonth : Option Month3) : Bool :=
  match previousMonth with
  | none => false
  | some pm =>
    pm.assignments.any fun a =>
      (a.mentor == mentor && a.mentee == mentee) || (a.mentor == mentee && a.mentee == mentor)

/-- The `pairingHistory` matrix entry for (mentor, mentee): the number of
historical assignments on the unordered pair, counted only when both names
are (distinct) roster members — the matrix has no other entries. -/
def pairingHistoryCount (members : List String) (months : List Month3)
    (mentor mentee : String) : Nat :=
  if members.contains mentor && members.contains mentee && mentor != mentee then
    (months.map fun m =>
      m.assignments.countP fun a =>
        (a.mentor == mentor && a.mentee == mentee) ||
        (a.mentor == mentee && a.mentee == mentor)).sum
  else 0

/-- Source `getPairingScore`: all-time pairing count plus 100 when the pair was
used in the previous month. -/
def getPairingScore (members : List String) (months : List Month3)
    (mentor mentee : String) (previousMonth : Option Month3) : Nat :=
  pairingHistoryCount members months mentor mentee +
    (if isRecentPairing mentor mentee previousMonth then 100 else 0)

/-- Stable insertion of `x` into a sorted list: `x` goes before the first
element it compares less-or-equal to, hence before any tied element that
originally came later. -/
def insertStable {α : Type} (le : α → α → Bool) (x : α) : List α → List α
  | [] => [x]
  | y :: ys => if le x y then x :: y :: ys else y :: insertStable le x ys

/-- Stable sort by a boolean comparator.  `Array.prototype.sort` with a
consistent comparator is specified to be stable, and a stable sort's output
is uniquely determined by the comparator and the input order, so this
models the source's `sort` calls exactly. -/
def stableSortBy {α : Type} (le : α → α → Bool) : List α → List α
  | [] => []
  | x :: xs => insertStable le x (stableSortBy le xs)

/-- Source `possiblePairings[mentor]`: scored candidate mentees (no self, no
excluded pair), stably sorted by ascending score. -/
def possiblePairings (members : List String) (excluded : List (String × String))
    (months : List Month3) (previousMonth : Option Month3) (mentor : String) :
    List (String × Nat) :=
  stableSortBy (fun a b => a.2 ≤ b.2)
    ((members.filter fun mentee => !(mentor == mentee || isPairExcluded mentor mentee excluded)).map
      fun mentee => (mentee, getPairingScore members months mentor mentee previousMonth))

/-- Source `membersByOptionCount`: members stably sorted by how many candidate
mentees they have (the used-member filter at sort time is over the empty
set, so it keeps every entry). -/
def membersByOptionCount (members : List String) (excluded : List (String × String))
    (months : List Month3) (previousMonth : Option Month3) : List String :=
  stableSortBy
    (fun a b =>
      (possiblePairings members excluded months previousMonth a).length ≤
        (possiblePairings members excluded months previousMonth b).length)
    members

/-- The mutable locals of the assignment loop of `generateNewAssignments`. -/
structure GNAState where
  assignments : List Assignment
  used : List String
  skip : List String
deriving DecidableEq, Repr

/-- One iteration of the assignment loop of `generateNewAssignments`:
skip used mentors, record mentors with no valid mentees, reverse the roles
when the best pairing repeats the previous month's orientation, otherwise
take the best (or second-best) valid mentee. -/
def gnaStep (members : List String) (excluded : List (String × String))
    (months : List Month3) (previousMonth : Option Month3)
    (st : GNAState) (mentor : String) : GNAState :=
  if st.used.contains mentor then st
  else
    match (possiblePairings members excluded months previousMonth mentor).filter
        (fun p => !st.used.contains p.1) with
    | [] => { st with skip := st.skip ++ [mentor], used := st.used ++ [mentor] }
    | sel0 :: restValid =>
      let prevSame := match previousMonth with
        | some pm => pm.assignments.any fun a => a.mentor == mentor && a.mentee == sel0.1
        | none => false
      if prevSame then
        if !st.used.contains sel0.1 && !isPairExcluded sel0.1 mentor excluded then
          { st with assignments := st.assignments ++ [⟨sel0.1, mentor⟩],
                    used := st.used ++ [mentor, sel0.1] }
        else
          let sel := match restValid with | s :: _ => s | [] => sel0
          { st with assignments := st.assignments ++ [⟨mentor, sel.1⟩],
                    used := st.used ++ [mentor, sel.1] }
      else
        { st with assignments := st.assignments ++ [⟨mentor, sel0.1⟩],
                  used := st.used ++ [mentor, sel0.1] }

/-- Source `generateNewAssignments`: build the scored pairing options, assign
most-constrained members first, then record every unassigned member as
skipped. -/
def generateNewAssignments (members : List String) (excluded : List (String × String))
    (months : List Month3) : List Assignment × List String :=
  let previousMonth := months.getLast?
  let order := membersByOptionCount members excluded months previousMonth
  let stF := order.foldl (gnaStep members excluded months previousMonth) ⟨[], [], []⟩
  (stF.assignments, stF.skip ++ members.filter fun m => !stF.used.contains m)

/-- The input structure of the matrix variant. -/
structure InputData3 where
  members : List String
  excluded : List (String × String)
  months : List Month3
deriving DecidableEq, Repr

/-- The `main` of the matrix variant after input reading, the wall-clock
month label passed in explicitly: append one new month carrying the
computed assignments and skip list. -/
def runMain3 (input : InputData3) (currentLabel : String) : InputData3 :=
  let p := generateNewAssignments input.members input.excluded input.months
  { input with months := input.months ++ [⟨currentLabel, p.2, p.1⟩] }

/-! ## Spec-side definitions for the Orientation Adjuster -/

/-- Spec-side matching: the two assignments are on the same unordered pair,
i.e. equal in either orientation. -/
def specSamePair (pair a : Assignment) : Bool :=
  (a.mentor == pair.mentor && a.mentee == pair.mentee) ||
  (a.mentor == pair.mentee && a.mentee == pair.mentor)

/-- The most-recent-orientation lookup of the spec: the assignment on the
same unordered pair from the chronologically last period in which that pair
occurred (first occurrence within that period). -/
def mostRecentSamePair (pair : Assignment) (history : List Month1) : Option Assignment :=
  history.reverse.findSome? fun m => (m.assignments.getD []).find? (specSamePair pair)

/-- The Orientation Adjuster as the spec words it: flip the candidate
exactly when the most recent historical assignment on the same unordered
pair has the same (mentor, mentee) orientation; otherwise (opposite
orientation, or no history) leave it unchanged. -/
def specAdjustPair (history : List Month1) (pair : Assignment) : Assignment :=
  match mostRecentSamePair pair history with
  | none => pair
  | some a =>
    if a.mentor = pair.mentor ∧ a.mentee = pair.mentee then pair.flip else pair

/-! ## Concrete instances used by the theorems -/

/-- The concrete history used against C3: the pair (A,B) assigned in 101
months, then one month assigning (C,D). -/
def c3months : List Month3 :=
  List.replicate 101 ⟨"2020年1月", [], [⟨"A", "B"⟩]⟩ ++ [⟨"2028年6月", [], [⟨"C", "D"⟩]⟩]

/-- The concrete input used to witness C8. -/
def c8In : InputData1 := ⟨["A", "B"], none, [⟨"2021年10月", none, none, none⟩]⟩

/-- The output of `runMain` on `c8In` with the all-zero random stream. -/
def c8Out : InputData1 :=
  ⟨["A", "B"], none,
    [⟨"2021年10月", none, none, none⟩, ⟨"2021年11月", none, some [⟨"B", "A"⟩], none⟩]⟩

/-- The concrete input used to witness C10. -/
def c10In : InputData1 := ⟨["A", "B", "C"], none, [⟨"2021年10月", none, none, none⟩]⟩

/-- The output of `runMain` on `c10In` with the all-zero random stream: one
member is left over, so the skip field is the single name "A". -/
def c10Out : InputData1 :=
  ⟨["A", "B", "C"], none,
    [⟨"2021年10月", none, none, none⟩,
     ⟨"2021年11月", some (SkipVal.one "A"), some [⟨"C", "B"⟩], none⟩]⟩


/-! ## Theorems -/

/-- C1. The claim states that in every generated period no member
appears in more than one assignment and no assignment matches an exclusion
rule.  The greedy variant (`createAssignments`, cited via `assignPair`)
violates the first conjunct: with roster A,B,C,D, no exclusions and no
history, it produces the three assignments (A,B), (B,C), (C,A) — every one
of A, B, C appears in two assignments — and a duplicated skip list
[D, D]. -/
theorem spec2proof_C1 :
    createAssignments ["A", "B", "C", "D"] [] [] =
      ([⟨"A", "B"⟩, ⟨"B", "C"⟩, ⟨"C", "A"⟩], ["D", "D"]) ∧
    (createAssignments ["A", "B", "C", "D"] [] []).1.countP
      (fun a => a.mentor == "B" || a.mentee == "B") = 2 := by
  constructor
  · decide
  · decide

/-- C6 counterexample. The matrix variant with an odd roster whose
pairs are all excluded skips all three members, not exactly one. -/
theorem spec2proof_C6_cex :
    (["A", "B", "C"] : List String).length % 2 = 1 ∧
    (generateNewAssignments ["A", "B", "C"] [("A", "B"), ("A", "C"), ("B", "C")] []).2 =
      ["A", "B", "C"] ∧
    ¬ ((generateNewAssignments ["A", "B", "C"] [("A", "B"), ("A", "C"), ("B", "C")] []).2.length
        = 1) := by
  refine ⟨by decide, by decide, by decide⟩

/-- C3 counterexample. With 101 past pairings of (A,B), the non-recent
pair (A,B) accrues a count-based penalty of 101, which the fixed recency
penalty of 100 does not strictly outweigh: the recent pair (C,D) does not
score strictly worse than (A,B). -/
theorem spec2proof_C3_cex :
    isRecentPairing "C" "D" c3months.getLast? = true ∧
    isRecentPairing "A" "B" c3months.getLast? = false ∧
    ¬ (getPairingScore ["A", "B", "C", "D"] c3months "A" "B" c3months.getLast? <
        getPairingScore ["A", "B", "C", "D"] c3months "C" "D" c3months.getLast?) := by
  refine ⟨by decide, by decide, by decide⟩

/-- C3, amended. The recency penalty is the fixed constant 100, so it
strictly outweighs a candidate's count-based penalty exactly when that
all-time count is below 100: any recent pair then scores strictly worse
than any non-recent pair whose count is below 100. -/
theorem spec2proof_C3 (members : List String) (months : List Month3) (prev : Option Month3)
    (m1 e1 m2 e2 : String)
    (h1 : isRecentPairing m1 e1 prev = true)
    (h2 : isRecentPairing m2 e2 prev = false)
    (hcount : pairingHistoryCount members months m2 e2 < 100) :
    getPairingScore members months m2 e2 prev < getPairingScore members months m1 e1 prev := by
  unfold getPairingScore
  rw [h1, h2]
  simp
  omega

/-- Witness for C3: one month of history pairing (A,B); the recent pair
(A,B) scores strictly worse than the fresh pair (C,D). -/
theorem spec2proof_C3_witness :
    getPairingScore ["A", "B", "C", "D"] [⟨"2024年1月", [], [⟨"A", "B"⟩]⟩] "C" "D"
        (some ⟨"2024年1月", [], [⟨"A", "B"⟩]⟩) <
      getPairingScore ["A", "B", "C", "D"] [⟨"2024年1月", [], [⟨"A", "B"⟩]⟩] "A" "B"
        (some ⟨"2024年1月", [], [⟨"A", "B"⟩]⟩) :=
  spec2proof_C3 _ _ _ _ _ _ _ (by decide) (by decide) (by decide)

/-! ## Divergence of the randomized retry (C2, C5) -/

/-- Shuffling a two-element list yields the list or its reversal. -/
lemma fisherYates_two (a b : String) (r : RandSrc) :
    (shuffleArray [a, b] r).1 = [a, b] ∨ (shuffleArray [a, b] r).1 = [b, a] := by
  unfold shuffleArray fisherYatesAux randBelow
  rcases Nat.mod_two_eq_zero_or_one (r.stream r.pos) with h | h <;>
    simp [shuffleStep, h, fisherYatesAux]

/-- With both orientations of the only possible pair excluded, every
candidate over the two-member eligible set contains an excluded pair. -/
lemma candidate_two_excluded (r : RandSrc) :
    candidateHasExcluded (generateCandidate ["A", "B"] r).1
      (buildExcludedSet (some [("A", "B")])) = true := by
  unfold generateCandidate
  rcases fisherYates_two "A" "B" r with h | h <;> simp only [h] <;> decide

/-- If every candidate the shuffler can produce contains an excluded pair,
the attempts loop never updates its best candidate. -/
lemma attemptLoop_allExcluded (eligible pastSet : List String)
    (prevAssignments : Option (List Assignment)) (excludedSet : List String)
    (hall : ∀ r, candidateHasExcluded (generateCandidate eligible r).1 excludedSet = true) :
    ∀ (n : Nat) (best : Option (List Assignment × Nat)) (r : RandSrc),
      (attemptLoop eligible pastSet prevAssignments excludedSet n best r).1 = best := by
  intro n
  induction n with
  | zero => intro best r; rfl
  | succ k ih =>
    intro best r
    unfold attemptLoop
    simp only [hall, if_true]
    exact ih best _

/-- On members A, B with the pair (A,B) excluded, the randomized generator
never returns: every attempt round fails, and the retry recursion repeats
the identical arguments forever. -/
lemma generateAssignments_diverges_AB :
    ∀ (fuel : Nat) (r : RandSrc),
      generateAssignmentsFuel [] (buildExcludedSet (some [("A", "B")])) fuel
        ["A", "B"] none none r = none := by
  intro fuel
  induction fuel with
  | zero => intro r; rfl
  | succ k ih =>
    intro r
    unfold generateAssignmentsFuel eligibleOf
    norm_num
    rw [attemptLoop_allExcluded _ _ _ _ candidate_two_excluded]
    norm_num
    exact ih _

/-- C2. The claim states that the randomized search terminates because
each retry strictly shrinks the eligible set.  In the code the retry calls
`generateAssignments` with the original `members`, so the eligible set is
rebuilt at full size and nothing shrinks: on members A, B with the pair
(A,B) excluded, no attempt ever succeeds and the recursion never returns,
whatever the random stream and however much fuel it is given. -/
theorem spec2proof_C2 :
    ∀ (fuel : Nat) (r : RandSrc),
      generateAssignmentsFuel [] (buildExcludedSet (some [("A", "B")])) fuel
        ["A", "B"] none none r = none :=
  generateAssignments_diverges_AB

/-- C5. The claim states that on members A, B with (A,B) excluded and
no history the program returns an empty assignment list with both members
skipped.  The matrix variant does exactly that, but the randomized variant
(the cited retry branch) never returns on this input — it recurses forever
on unchanged arguments instead of degrading gracefully. -/
theorem spec2proof_C5 :
    (∀ (fuel : Nat) (r : RandSrc),
      generateAssignmentsFuel [] (buildExcludedSet (some [("A", "B")])) fuel
        ["A", "B"] none none r = none) ∧
    generateNewAssignments ["A", "B"] [("A", "B")] [] = ([], ["A", "B"]) :=
  ⟨generateAssignments_diverges_AB, by decide⟩

/-- C6, amended. For the randomized-search variant: whenever
`generateAssignments` terminates and the eligible member count is odd,
exactly one member beyond the explicitly pre-skipped one is recorded in the
extra-skip list.  (The matrix variant can skip more than one odd-roster
member when exclusions leave members without valid partners, see the
counterexample.) -/
theorem spec2proof_C6 (monthsAll : List Month1) (excludedSet : List String)
    (fuel : Nat) (members : List String) (skip : Option String)
    (prevAssignments : Option (List Assignment)) (r : RandSrc)
    (p : AssignmentResult × RandSrc)
    (hodd : (eligibleOf members skip).length % 2 = 1)
    (hrun : generateAssignmentsFuel monthsAll excludedSet fuel members skip
      prevAssignments r = some p) :
    p.1.extraSkip.length = 1 := by
  induction fuel generalizing r with
  | zero => exact absurd hrun (by simp [generateAssignmentsFuel])
  | succ k ih =>
    unfold generateAssignmentsFuel at hrun
    simp only [hodd, ne_eq] at hrun
    rw [if_pos (by omega : ¬ (1 = 0))] at hrun
    cases hloop : (attemptLoop ((eligibleOf members skip).eraseIdx
        (randBelow (eligibleOf members skip).length r).1) (buildPastSet monthsAll)
        prevAssignments excludedSet 1000 none
        (randBelow (eligibleOf members skip).length r).2).1 with
    | some best =>
      rw [hloop] at hrun
      simp only [Option.some.injEq] at hrun
      rw [← hrun]
      rfl
    | none =>
      rw [hloop] at hrun
      by_cases hlen : ((eligibleOf members skip).eraseIdx
          (randBelow (eligibleOf members skip).length r).1).length = 0
      · rw [if_pos hlen] at hrun
        simp only [Option.some.injEq] at hrun
        rw [← hrun]
        rfl
      · rw [if_neg hlen] at hrun
        exact ih _ hrun

/-! ## Orientation Adjuster lemmas (C4, C7) -/

lemma pairSetSize_comm (x y : String) : pairSetSize x y = pairSetSize y x := by
  unfold pairSetSize
  by_cases h : x = y
  · simp [h]
  · rw [if_neg h, if_neg (Ne.symm h)]

/-- For a candidate with distinct mentor and mentee, the source's set-based
match test agrees with "equal in either orientation". -/
lemma sameUnordered_eq_spec (pair a : Assignment) (h : pair.mentor ≠ pair.mentee) :
    sameUnordered pair a = specSamePair pair a := by
  rcases pair with ⟨pm, pe⟩
  rcases a with ⟨am, ae⟩
  replace h : pm ≠ pe := h
  rw [Bool.eq_iff_iff]
  simp only [sameUnordered, specSamePair, pairSetSize, Bool.and_eq_true, Bool.or_eq_true,
    beq_iff_eq]
  rw [if_neg h]
  constructor
  · rintro ⟨hsize, ⟨hm | hm, he | he⟩⟩
    · exact absurd (hm.trans he.symm) h
    · exact Or.inl ⟨hm.symm, he.symm⟩
    · exact Or.inr ⟨he.symm, hm.symm⟩
    · exact absurd (hm.trans he.symm) h
  · rintro (⟨h1, h2⟩ | ⟨h1, h2⟩)
    · subst h1
      subst h2
      exact ⟨by rw [if_neg h], Or.inl rfl, Or.inr rfl⟩
    · subst h1
      subst h2
      exact ⟨by rw [if_neg fun hh => h hh.symm], Or.inr rfl, Or.inl rfl⟩

/-- Flipping a candidate does not change which historical assignments are
on the same unordered pair. -/
lemma sameUnordered_flip (p a : Assignment) :
    sameUnordered p.flip a = sameUnordered p a := by
  unfold sameUnordered
  simp only [Assignment.flip]
  congr 1
  · rw [pairSetSize_comm]
  · exact Bool.and_comm _ _

lemma monthMatch_flip (p : Assignment) : monthMatch p.flip = monthMatch p := by
  funext m
  unfold monthMatch
  congr 1
  funext a
  exact sameUnordered_flip p a

lemma find?_congr_pred {α : Type} (l : List α) (p q : α → Bool) (h : ∀ x, p x = q x) :
    l.find? p = l.find? q := by
  induction l with
  | nil => rfl
  | cons x xs ih =>
    simp only [List.find?]
    rw [h x]
    cases q x
    · exact ih
    · rfl

lemma monthMatch_eq_spec (pair : Assignment) (h : pair.mentor ≠ pair.mentee) :
    monthMatch pair = fun m => (m.assignments.getD []).find? (specSamePair pair) := by
  funext m
  unfold monthMatch
  exact find?_congr_pred _ _ _ (fun a => sameUnordered_eq_spec pair a h)

/-- The adjuster body agrees with the spec's description on every candidate
pair with distinct mentor and mentee. -/
lemma adjustPair_eq_spec (history : List Month1) (pair : Assignment)
    (h : pair.mentor ≠ pair.mentee) :
    adjustPair history pair = specAdjustPair history pair := by
  unfold adjustPair specAdjustPair mostRecentSamePair
  rw [monthMatch_eq_spec pair h]
  cases hfind : history.reverse.findSome?
      (fun m => (m.assignments.getD []).find? (specSamePair pair)) with
  | none => rfl
  | some a =>
    dsimp only
    by_cases hsame : a.mentor = pair.mentor ∧ a.mentee = pair.mentee
    · rw [if_pos hsame]
      rw [if_pos (by simp [hsame.1, hsame.2])]
      rw [if_neg (by simp [hsame.1, hsame.2]; intro hh; exact absurd (hh ▸ rfl) h)]
      rfl
    · rw [if_neg hsame]
      rw [if_neg (by simpa [Bool.and_eq_true, beq_iff_eq] using hsame)]

/-- The adjuster either leaves a pair unchanged or flips it, the latter only
when the most recent match is the pair itself (same orientation) and the
pair has distinct members. -/
lemma adjustPair_outcome (history : List Month1) (p : Assignment) :
    adjustPair history p = p ∨
      (p.mentor ≠ p.mentee ∧ history.reverse.findSome? (monthMatch p) = some p ∧
        adjustPair history p = p.flip) := by
  unfold adjustPair
  cases hfind : history.reverse.findSome? (monthMatch p) with
  | none => exact Or.inl rfl
  | some a =>
    dsimp only
    by_cases h1 : (a.mentor == p.mentor && a.mentee == p.mentee) = true
    · by_cases h2 : (a.mentor == p.mentee && a.mentee == p.mentor) = true
      · rw [if_pos h1, if_pos h2]
        exact Or.inl rfl
      · rw [if_pos h1, if_neg h2]
        have hae : a = p := by
          rcases a with ⟨am, ae⟩
          rcases p with ⟨pm, pe⟩
          simp only [Bool.and_eq_true, beq_iff_eq] at h1
          simp [h1.1, h1.2]
        subst hae
        simp only [Bool.and_eq_true, beq_iff_eq, not_and] at h2
        exact Or.inr ⟨fun hh => (h2 hh) hh.symm, rfl, rfl⟩
    · rw [if_neg h1]
      exact Or.inl rfl

/-- Adjusting a single pair twice is the same as adjusting it once. -/
lemma adjustPair_idem (history : List Month1) (p : Assignment) :
    adjustPair history (adjustPair history p) = adjustPair history p := by
  rcases adjustPair_outcome history p with hp | ⟨hne, hfind, hflip⟩
  · rw [hp]
    exact hp
  · rw [hflip]
    unfold adjustPair
    rw [monthMatch_flip, hfind]
    dsimp only
    rw [if_neg (by
      simp only [Assignment.flip, Bool.and_eq_true, beq_iff_eq, not_and]
      exact fun hh _ => hne hh)]

/-- C4. For candidates whose pairs have distinct mentor and mentee, the
Orientation Adjuster is exactly the spec's description: each pair is
flipped precisely when the chronologically most recent historical
assignment on the same unordered pair has the same orientation, and left
unchanged when that orientation is opposite or no history exists for the
pair. -/
theorem spec2proof_C4 (candidate : List Assignment) (history : List Month1)
    (h : ∀ a ∈ candidate, a.mentor ≠ a.mentee) :
    adjustAssignments candidate history = candidate.map (specAdjustPair history) := by
  unfold adjustAssignments
  induction candidate with
  | nil => rfl
  | cons x xs ih =>
    simp only [List.map]
    rw [adjustPair_eq_spec history x (h x (by simp))]
    rw [ih fun a ha => h a (by simp [ha])]

/-- Witness for C4, the spec's scenario: the most recent period contains
(A,B) and the candidate proposes (A,B) again, so the output flips it to
(B,A) and leaves (C,D) alone. -/
theorem spec2proof_C4_witness :
    (∀ a ∈ [(⟨"A", "B"⟩ : Assignment), ⟨"C", "D"⟩], a.mentor ≠ a.mentee) ∧
    adjustAssignments [⟨"A", "B"⟩, ⟨"C", "D"⟩]
        [⟨"2021年10月", none, some [⟨"A", "B"⟩], none⟩] =
      [(⟨"A", "B"⟩ : Assignment), ⟨"C", "D"⟩].map
        (specAdjustPair [⟨"2021年10月", none, some [⟨"A", "B"⟩], none⟩]) ∧
    adjustAssignments [⟨"A", "B"⟩, ⟨"C", "D"⟩]
        [⟨"2021年10月", none, some [⟨"A", "B"⟩], none⟩] =
      [⟨"B", "A"⟩, ⟨"C", "D"⟩] :=
  ⟨by decide, spec2proof_C4 _ _ (by decide), by decide⟩

/-- C7. The Orientation Adjuster is idempotent: adjusting an
already-adjusted candidate list against the same history changes
nothing. -/
theorem spec2proof_C7 (candidate : List Assignment) (history : List Month1) :
    adjustAssignments (adjustAssignments candidate history) history =
      adjustAssignments candidate history := by
  unfold adjustAssignments
  induction candidate with
  | nil => rfl
  | cons x xs ih =>
    simp only [List.map]
    rw [adjustPair_idem history x]
    rw [ih]

/-- Witness for C6: three members, no exclusions, no history; the odd
roster leaves exactly the one randomly removed member extra-skipped. -/
theorem spec2proof_C6_witness :
    (eligibleOf ["A", "B", "C"] none).length % 2 = 1 ∧
    ((⟨[⟨"C", "B"⟩], ["A"]⟩, ⟨fun _ => 0, 2⟩) : AssignmentResult × RandSrc).1.extraSkip.length
      = 1 :=
  ⟨by decide,
    spec2proof_C6 [] [] 1 ["A", "B", "C"] none none ⟨fun _ => 0, 0⟩ _ (by decide) rfl⟩

/-! ## Frame and skip-shape properties of main (C8, C10) -/

lemma skipField_zero (l : List String) (h : l.length = 0) : skipField l = none := by
  unfold skipField
  rw [h]
  simp

lemma skipField_single (x : String) : skipField [x] = some (SkipVal.one x) := rfl

lemma skipField_many_of (l : List String) (h : l.length > 1) :
    skipField l = some (SkipVal.many l) := by
  unfold skipField
  rw [if_pos (by omega : l.length > 0)]
  rw [if_neg (by simp only [beq_iff_eq]; omega)]

/-- C8. A successful run of the randomized variant's main returns the
input structure with members and exclusions untouched and exactly one new
month appended, whose label is the computed successor of the last month's
label, whose assignment list is the generator's orientation-adjusted
assignment list, and whose skip field carries the generator's leftover
members when there are any (single name or list, see C10) and is absent
otherwise.  The matrix variant's main likewise appends exactly one month
carrying its computed assignment and skip lists, all else unchanged. -/
theorem spec2proof_C8 (fuel : Nat) (input : InputData1) (r : RandSrc) (out : InputData1)
    (hrun : runMain fuel input r = some out) :
    (out.members = input.members ∧ out.excluded = input.excluded ∧
      ∃ (result : AssignmentResult) (r2 : RandSrc) (newMonth : Month1),
        generateAssignmentsFuel input.months (buildExcludedSet input.excluded) fuel
          input.members none (prevAssignmentsOf input.months) r = some (result, r2) ∧
        out.months = input.months ++ [newMonth] ∧
        (∃ lastMonth, input.months.getLast? = some lastMonth ∧
          nextLabel lastMonth.month = some newMonth.month) ∧
        newMonth.assignments = some (adjustAssignments result.assignments input.months) ∧
        newMonth.skip = skipField result.extraSkip ∧
        (result.extraSkip = [] → newMonth.skip = none) ∧
        (result.extraSkip ≠ [] →
          newMonth.skip = some (if result.extraSkip.length == 1
            then SkipVal.one (result.extraSkip.getD 0 "")
            else SkipVal.many result.extraSkip))) ∧
    ∀ (i3 : InputData3) (label : String),
      (runMain3 i3 label).members = i3.members ∧
      (runMain3 i3 label).excluded = i3.excluded ∧
      (runMain3 i3 label).months = i3.months ++
        [⟨label, (generateNewAssignments i3.members i3.excluded i3.months).2,
          (generateNewAssignments i3.members i3.excluded i3.months).1⟩] := by
  refine ⟨?_, fun i3 label => ⟨rfl, rfl, rfl⟩⟩
  unfold runMain at hrun
  cases hlast : input.months.getLast? with
  | none =>
    rw [hlast] at hrun
    exact absurd hrun (by simp)
  | some lastMonth =>
    rw [hlast] at hrun
    dsimp only at hrun
    cases hlab : nextLabel lastMonth.month with
    | none =>
      rw [hlab] at hrun
      exact absurd hrun (by simp)
    | some label =>
      rw [hlab] at hrun
      dsimp only at hrun
      cases hgen : generateAssignmentsFuel input.months (buildExcludedSet input.excluded) fuel
          input.members none (prevAssignmentsOf input.months) r with
      | none =>
        rw [hgen] at hrun
        exact absurd hrun (by simp)
      | some p =>
        obtain ⟨result, r2⟩ := p
        rw [hgen] at hrun
        dsimp only at hrun
        simp only [Option.some.injEq] at hrun
        subst hrun
        refine ⟨rfl, rfl, result, r2,
          { month := label, skip := skipField result.extraSkip,
            assignments := some (adjustAssignments result.assignments input.months),
            extraSkip := none },
          rfl, rfl, ⟨lastMonth, rfl, hlab⟩, rfl, rfl, ?_, ?_⟩
        · intro h0
          rw [h0]
          rfl
        · intro hne
          show skipField result.extraSkip = _
          unfold skipField
          rw [if_pos (List.length_pos.mpr hne)]

/-- Witness for C8 at a concrete successful run (the appended month holds
the adjusted assignment list [(B,A)] and no skip field). -/
theorem spec2proof_C8_witness :
    (c8Out.members = c8In.members ∧ c8Out.excluded = c8In.excluded ∧
      ∃ (result : AssignmentResult) (r2 : RandSrc) (newMonth : Month1),
        generateAssignmentsFuel c8In.months (buildExcludedSet c8In.excluded) 1
          c8In.members none (prevAssignmentsOf c8In.months) ⟨fun _ => 0, 0⟩ =
            some (result, r2) ∧
        c8Out.months = c8In.months ++ [newMonth] ∧
        (∃ lastMonth, c8In.months.getLast? = some lastMonth ∧
          nextLabel lastMonth.month = some newMonth.month) ∧
        newMonth.assignments = some (adjustAssignments result.assignments c8In.months) ∧
        newMonth.skip = skipField result.extraSkip ∧
        (result.extraSkip = [] → newMonth.skip = none) ∧
        (result.extraSkip ≠ [] →
          newMonth.skip = some (if result.extraSkip.length == 1
            then SkipVal.one (result.extraSkip.getD 0 "")
            else SkipVal.many result.extraSkip))) ∧
    ∀ (i3 : InputData3) (label : String),
      (runMain3 i3 label).members = i3.members ∧
      (runMain3 i3 label).excluded = i3.excluded ∧
      (runMain3 i3 label).months = i3.months ++
        [⟨label, (generateNewAssignments i3.members i3.excluded i3.months).2,
          (generateNewAssignments i3.members i3.excluded i3.months).1⟩] :=
  spec2proof_C8 1 c8In ⟨fun _ => 0, 0⟩ c8Out rfl

/-- C10. In a successful run, the appended month's skip field is absent
when no member was left unpaired, the single name when exactly one was, and
the list of names when more than one was. -/
theorem spec2proof_C10 (fuel : Nat) (input : InputData1) (r : RandSrc) (out : InputData1)
    (hrun : runMain fuel input r = some out) :
    ∃ (result : AssignmentResult) (r2 : RandSrc) (newMonth : Month1),
      generateAssignmentsFuel input.months (buildExcludedSet input.excluded) fuel
        input.members none (prevAssignmentsOf input.months) r = some (result, r2) ∧
      out.months = input.months ++ [newMonth] ∧
      (result.extraSkip.length = 0 → newMonth.skip = none) ∧
      (∀ x, result.extraSkip = [x] → newMonth.skip = some (SkipVal.one x)) ∧
      (result.extraSkip.length > 1 → newMonth.skip = some (SkipVal.many result.extraSkip)) := by
  unfold runMain at hrun
  cases hlast : input.months.getLast? with
  | none =>
    rw [hlast] at hrun
    exact absurd hrun (by simp)
  | some lastMonth =>
    rw [hlast] at hrun
    dsimp only at hrun
    cases hlab : nextLabel lastMonth.month with
    | none =>
      rw [hlab] at hrun
      exact absurd hrun (by simp)
    | some label =>
      rw [hlab] at hrun
      dsimp only at hrun
      cases hgen : generateAssignmentsFuel input.months (buildExcludedSet input.excluded) fuel
          input.members none (prevAssignmentsOf input.months) r with
      | none =>
        rw [hgen] at hrun
        exact absurd hrun (by simp)
      | some p =>
        obtain ⟨result, r2⟩ := p
        rw [hgen] at hrun
        dsimp only at hrun
        simp only [Option.some.injEq] at hrun
        subst hrun
        refine ⟨result, r2,
          { month := label, skip := skipField result.extraSkip,
            assignments := some (adjustAssignments result.assignments input.months),
            extraSkip := none },
          rfl, rfl, ?_, ?_, ?_⟩
        · intro h0
          exact skipField_zero _ h0
        · intro x hx
          rw [hx]
          exact skipField_single x
        · intro hgt
          exact skipField_many_of _ hgt

/-- Witness for C10 at a concrete successful run with one leftover
member. -/
theorem spec2proof_C10_witness :
    ∃ (result : AssignmentResult) (r2 : RandSrc) (newMonth : Month1),
      generateAssignmentsFuel c10In.months (buildExcludedSet c10In.excluded) 1
        c10In.members none (prevAssignmentsOf c10In.months) ⟨fun _ => 0, 0⟩ =
          some (result, r2) ∧
      c10Out.months = c10In.months ++ [newMonth] ∧
      (result.extraSkip.length = 0 → newMonth.skip = none) ∧
      (∀ x, result.extraSkip = [x] → newMonth.skip = some (SkipVal.one x)) ∧
      (result.extraSkip.length > 1 → newMonth.skip = some (SkipVal.many result.extraSkip)) :=
  spec2proof_C10 1 c10In ⟨fun _ => 0, 0⟩ c10Out rfl

/-! ## Determinism (C9) -/

/-- C9. The computation is a pure function of the roster, exclusions,
history and the random stream: runs on identical inputs with identical
streams return identical outputs.  (The `Math.random()` draws are the
explicit `RandSrc` stream, which plays the role of the seedable random
source.) -/
theorem spec2proof_C9 (fuel : Nat) (i1 i2 : InputData1) (r1 r2 : RandSrc)
    (hm : i1.members = i2.members) (he : i1.excluded = i2.excluded)
    (hmo : i1.months = i2.months) (hr : r1 = r2) :
    runMain fuel i1 r1 = runMain fuel i2 r2 := by
  cases i1
  cases i2
  cases hm
  cases he
  cases hmo
  cases hr
  rfl

/-- Witness for C9: two identical runs on a concrete input agree. -/
theorem spec2proof_C9_witness :
    runMain 1 ⟨["A", "B"], none, [⟨"2021年10月", none, none, none⟩]⟩ ⟨fun _ => 0, 0⟩ =
      runMain 1 ⟨["A", "B"], none, [⟨"2021年10月", none, none, none⟩]⟩ ⟨fun _ => 0, 0⟩ :=
  spec2proof_C9 1 _ _ _ _ rfl rfl rfl rfl
